import Mathlib

/-! TrafficTester: a shallow embedding of `main.go`.

The Go program is a synthetic-traffic generator.  This file embeds the parts
of `main.go` that carry its logic as Lean definitions and proves properties of
them:

* the shared byte counter `totalBytes` (a `uint64`) with its two critical
  sections (`downloadFile` adds, `startLogger` reads and resets);
* `rateLimitedReader.Read`, `io.Copy(io.Discard, _)` and `downloadFile`;
* the limiter a task builds from the configured speed range;
* the hour-boundary sleep of `startLogger`;
* `appendLog` with its rotation rule, over a small file-system model;
* the index sampling of `runDownloader`;
* the process as a labelled transition system: `main` supervising
  `runDownloader`, the `sem` channel, the task goroutines and the logger
  goroutines.

Conventions.  Go's `uint64` is a `Nat` reduced modulo `2 ^ 64` at every
assignment.  Go's `float64` configuration values are embedded in `ℚ`; the one
numeric statement made about them concerns operands on which every
floating-point operation is exact.  Library calls (`rate.Limiter.WaitN`,
`time.Time.Truncate`, `os.Rename`, ...) are modelled after their documented
behaviour.
-/

namespace TrafficTester

/-! ## Configuration (`main.go` 20-30) -/

/-- The `Config` struct, field by field. -/
structure Config where
  URLs : List String
  MinSpeedMbps : ℚ
  MaxSpeedMbps : ℚ
  MaxConcurrency : Int
  LogFile : String
  MinBytesPerDownload : Int
  MaxBytesPerDownload : Int
  MinIntervalSec : Int
  MaxIntervalSec : Int
deriving DecidableEq

/-! ## Global stats (`main.go` 45-48) -/

/-- Number of values of a Go `uint64`. -/
def uint64Size : Nat := 2 ^ 64

/-- The global `totalBytes uint64`; `statsLock` makes each of the two
critical sections below one indivisible step. -/
structure Stats where
  totalBytes : Nat
deriving DecidableEq, Repr

/-- The critical section of `downloadFile` (lines 94-96):
`totalBytes += uint64(n)`.  The conversion and the addition both wrap. -/
def Stats.add (s : Stats) (n : Nat) : Stats :=
  { totalBytes := (s.totalBytes + n % uint64Size) % uint64Size }

/-- The critical section of `startLogger` (lines 120-123): the value of
`totalBytes` that is read (and then scaled to megabytes for the log line),
and the state with `totalBytes = 0`. -/
def Stats.flush (s : Stats) : Nat × Stats :=
  (s.totalBytes, { totalBytes := 0 })

/-- A run of `add` calls, in order. -/
def Stats.addAll (s : Stats) (ns : List Nat) : Stats :=
  ns.foldl Stats.add s

/-! ## The limiter (`golang.org/x/time/rate`, as documented) -/

/-- The value `rate.Inf` (`math.MaxFloat64`). -/
def rateInf : ℚ := 2 ^ 1024 - 2 ^ 971

/-- A `rate.Limiter`: its limit in events per second, its burst, and the
number of tokens debited from its bucket so far. -/
structure Limiter where
  limit : ℚ
  burst : Int
  debited : Nat
deriving DecidableEq

/-- The call `rate.NewLimiter(r, b)`. -/
def NewLimiter (r : ℚ) (b : Int) : Limiter :=
  { limit := r, burst := b, debited := 0 }

/-- The call `lim.WaitN(context.Background(), n)`.  Documented behaviour: it
blocks until the limiter permits `n` events, and returns an error if `n`
exceeds the burst size (the burst is ignored if the limit is `Inf`).  The
background context is never cancelled and has no deadline.  An error leaves
the bucket untouched and returns at once. -/
def Limiter.WaitN (lim : Limiter) (n : Nat) : Except String Unit × Limiter :=
  if (n : Int) > lim.burst ∧ lim.limit ≠ rateInf then
    (.error "rate: Wait(n) exceeds limiter's burst", lim)
  else
    (.ok (), { lim with debited := lim.debited + n })

/-! ## The rate-limited reader (`main.go` 51-62) -/

/-- The error value of a `Read`: `io.EOF` or any other error. -/
inductive ReadErr where
  | EOF
  | other (msg : String)
deriving DecidableEq, Repr

/-- A response body that ends: the reads that return `(n, nil)`, followed
by the read that returns a non-nil error together with `lastN` bytes. -/
structure Body where
  chunks : List Nat
  lastN : Nat
  lastErr : ReadErr
deriving DecidableEq, Repr

/-- The underlying `r.reader.Read(p)`: the next result of the body. -/
def Body.Read (b : Body) : Nat × Option ReadErr × Body :=
  match b.chunks with
  | c :: cs => (c, none, { b with chunks := cs })
  | [] => (b.lastN, some b.lastErr, b)

/-- The struct `rateLimitedReader`. -/
structure rateLimitedReader where
  reader : Body
  limiter : Limiter
deriving DecidableEq

/-- The method `rateLimitedReader.Read` (lines 56-62): read, then call
`WaitN` when `n > 0` and discard its result. -/
def rateLimitedReader.Read (r : rateLimitedReader) :
    Nat × Option ReadErr × rateLimitedReader :=
  let (n, err, reader) := r.reader.Read
  if n > 0 then
    (n, err, { reader := reader, limiter := (r.limiter.WaitN n).2 })
  else
    (n, err, { reader := reader, limiter := r.limiter })

/-- The loop of `io.Copy(io.Discard, reader)` (`discard.ReadFrom`): read
until an error, count every byte, and report `io.EOF` as no error.  The
first argument bounds the number of reads. -/
def ReadFrom : Nat → rateLimitedReader → Nat →
    Option (Nat × Option String × rateLimitedReader)
  | 0, _, _ => none
  | fuel + 1, r, n =>
    match r.Read with
    | (readSize, none, r1) => ReadFrom fuel r1 (n + readSize)
    | (readSize, some .EOF, r1) => some (n + readSize, none, r1)
    | (readSize, some (.other msg), r1) => some (n + readSize, some msg, r1)

/-- The error `io.Copy` returns when the read that ends the copy returned `e`:
`io.EOF` is reported as nil. -/
def copyErr : ReadErr → Option String
  | .EOF => none
  | .other msg => some msg

/-- The call `io.Copy(io.Discard, reader)`: one read per chunk and one for
the final result. -/
def ioCopyDiscard (r : rateLimitedReader) :
    Option (Nat × Option String × rateLimitedReader) :=
  ReadFrom (r.reader.chunks.length + 1) r 0

/-! ## The downloader (`main.go` 65-105) -/

/-- What the network does with one request. -/
inductive Transfer where
  | newRequestFails (err : String)
  | doFails (err : String)
  | response (body : Body)
deriving DecidableEq, Repr

/-- Number of bytes read from the response body of a transfer. -/
def Transfer.bytesRead : Transfer → Nat
  | .newRequestFails _ => 0
  | .doFails _ => 0
  | .response body => body.chunks.sum + body.lastN

/-- Result of `downloadFile`: the returned error, the shared counter and the
limiter afterwards. -/
structure DownloadResult where
  err : Option String
  stats : Stats
  limiter : Limiter
deriving DecidableEq

/-- The function `downloadFile` (lines 65-105).  `none` would mean that
`io.Copy` did not return. -/
def downloadFile (t : Transfer) (limiter : Limiter) (stats : Stats) :
    Option DownloadResult :=
  match t with
  | .newRequestFails err => some { err := some err, stats := stats, limiter := limiter }
  | .doFails err => some { err := some err, stats := stats, limiter := limiter }
  | .response body =>
    match ioCopyDiscard { reader := body, limiter := limiter } with
    | none => none
    | some (n, err, reader) =>
      let stats := stats.add n
      match err with
      | some e =>
        some { err := some ("download error: " ++ e), stats := stats,
               limiter := reader.limiter }
      | none => some { err := none, stats := stats, limiter := reader.limiter }

/-! ## The limiter of a task (`main.go` 192-195) -/

/-- Go's conversion `int(f)` of a float: truncation toward zero. -/
def goInt (f : ℚ) : Int :=
  if 0 ≤ f then f.floor else -((-f).floor)

/-- Lines 193-195 of the task goroutine: the sampled speed, its conversion
to bytes per second, and the limiter.  `r` is the value of
`rand.Float64()`. -/
def taskLimiter (cfg : Config) (r : ℚ) : Limiter :=
  let speed := cfg.MinSpeedMbps + r * (cfg.MaxSpeedMbps - cfg.MinSpeedMbps)
  let bytesPerSec := (speed * 1024 * 1024) / 8
  NewLimiter bytesPerSec (goInt bytesPerSec)

/-! ## The hour-boundary sleep of the logger (`main.go` 113-117) -/

/-- Nanoseconds in a second. -/
def nsPerSecond : Int := 1000000000

/-- The constant `time.Hour`, a `Duration` in nanoseconds. -/
def Hour : Int := 3600 * nsPerSecond

/-- A `time.Time`: the instant as nanoseconds since the zero time (January 1,
year 1, 00:00:00 UTC), and the offset of its location in seconds east of
UTC. -/
structure Time where
  abs : Int
  offset : Int
deriving DecidableEq, Repr

/-- The method `t.Truncate(d)`: rounds `t` down to a multiple of `d` since the
zero time; unchanged for `d <= 0`.  It works on the absolute time, not on
the presentation in the location. -/
def Time.Truncate (t : Time) (d : Int) : Time :=
  if d ≤ 0 then t else { t with abs := t.abs - t.abs % d }

/-- The method `t.Add(d)`. -/
def Time.Add (t : Time) (d : Int) : Time :=
  { t with abs := t.abs + d }

/-- The method `t.Sub(u)`: the duration `t - u`. -/
def Time.Sub (t u : Time) : Int :=
  t.abs - u.abs

/-- Lines 113-116 of `startLogger`: `next := now.Truncate(time.Hour).Add(time.Hour)`
and `sleepDuration := next.Sub(now)`. -/
def sleepDuration (now : Time) : Int :=
  let next := (now.Truncate Hour).Add Hour
  next.Sub now

/-- Nanoseconds of the wall clock shown in the location of `t`. -/
def Time.wall (t : Time) : Int :=
  t.abs + t.offset * nsPerSecond

/-- The method `t.Minute()`: the minute of the hour in the location. -/
def Time.Minute (t : Time) : Int :=
  (t.wall / nsPerSecond % 3600) / 60

/-- The method `t.Second()`. -/
def Time.Second (t : Time) : Int :=
  t.wall / nsPerSecond % 60

/-- The method `t.Nanosecond()`. -/
def Time.Nanosecond (t : Time) : Int :=
  t.wall % nsPerSecond

/-- A wall-clock hour boundary: minute, second and nanosecond all zero in
the location. -/
def Time.onTheHour (t : Time) : Prop :=
  t.Minute = 0 ∧ t.Second = 0 ∧ t.Nanosecond = 0

instance (t : Time) : Decidable t.onTheHour := by
  unfold Time.onTheHour; infer_instance

/-! ## The log file and its rotation (`main.go` 130-152) -/

/-- File contents. -/
abbrev Bytes := List UInt8

/-- The byte `'\n'`. -/
def newline : UInt8 := 10

/-- A directory of regular files: the content stored under each path. -/
abbrev FS := String → Option Bytes

/-- The file system with `content` stored at `path`. -/
def FS.store (fs : FS) (path : String) (content : Bytes) : FS :=
  fun p => if p = path then some content else fs p

/-- The call `os.OpenFile(path, os.O_APPEND|os.O_CREATE|os.O_WRONLY, 0644)`:
creates the file when it is absent; the empty path names no file and is
the error case of the model. -/
def OpenFile (fs : FS) (path : String) : Except String FS :=
  if path = "" then .error "open : no such file or directory"
  else match fs path with
    | some _ => .ok fs
    | none => .ok (fs.store path [])

/-- The call `f.WriteString(line)` on a file opened with `O_APPEND`. -/
def WriteString (fs : FS) (path : String) (line : Bytes) : FS :=
  fs.store path ((fs path).getD [] ++ line)

/-- The call `os.ReadFile(path)` with its error dropped: no content on
failure. -/
def ReadFile (fs : FS) (path : String) : Bytes :=
  (fs path).getD []

/-- The call `os.Rename(oldpath, newpath)`: moves the file and replaces a file
that is at `newpath`. -/
def Rename (fs : FS) (oldpath newpath : String) : FS :=
  fun p => if p = newpath then fs oldpath else if p = oldpath then none else fs p

/-- The counting loop of `appendLog` (lines 141-146). -/
def countLines (content : Bytes) : Nat :=
  content.foldl (fun lines b => if b = newline then lines + 1 else lines) 0

/-- The name of the rotated file: `fmt.Sprintf("%s.%d", path, unix)`. -/
def rotatedPath (path : String) (unix : Int) : String :=
  path ++ "." ++ toString unix

/-- The function `appendLog` (lines 130-152); `unix` is `time.Now().Unix()`
at line 148. -/
def appendLog (path : String) (line : Bytes) (unix : Int) (fs : FS) : FS :=
  match OpenFile fs path with
  | .error _ => fs
  | .ok fs1 =>
    let fs2 := WriteString fs1 path line
    let content := ReadFile fs2 path
    let lines := countLines content
    if lines > 1000 then
      let newPath := rotatedPath path unix
      Rename fs2 path newPath
    else
      fs2

/-! ## Sampling two endpoints (`main.go` 175-180) -/

/-- The loop `for idx2 == idx1 { idx2 = rand.Intn(len(cfg.URLs)) }` over the
results of the coming `rand.Intn` calls; `none` when the loop has not been
left after all of them. -/
def resample (idx1 idx2 : Nat) : List Nat → Option (Nat × List Nat)
  | [] => if idx2 = idx1 then none else some (idx2, [])
  | d :: ds => if idx2 = idx1 then resample idx1 d ds else some (idx2, d :: ds)

/-- Lines 175-179: `idx1`, `idx2` and the draws left over. -/
def pickTwo : List Nat → Option (Nat × Nat × List Nat)
  | idx1 :: idx2 :: draws =>
    match resample idx1 idx2 draws with
    | some (i2, rest) => some (idx1, i2, rest)
    | none => none
  | _ => none

/-! ## The process: supervisor, scheduler loop, gate, tasks, loggers -/

/-- How the body of a task goroutine ends: `downloadFile` returned nil, it
returned an error (logged), or the body panicked (recovered, logged). -/
inductive Outcome where
  | done
  | failed (err : String)
  | panicked (value : String)
deriving DecidableEq, Repr

/-- A Transfer Task from the moment its slot is acquired; `started` is false
between `sem <- struct{}{}` (line 183) and the `go` statement (line 184). -/
structure Task where
  url : String
  started : Bool
deriving DecidableEq, Repr

/-- One `sem` channel (line 167) and the tasks that captured it: capacity,
number of buffered elements, tasks that have not run their deferred
`<-sem`. -/
structure Gate where
  cap : Nat
  sem : Nat
  tasks : List Task
deriving DecidableEq, Repr

/-- Where the main goroutine is. -/
inductive Pc where
  | main
  | loop (cfg : Config)
  | acquire (cfg : Config) (u : String) (rest : List String)
  | spawn (cfg : Config) (u : String) (rest : List String)
  | interval (cfg : Config)
  | sleeping (cfg : Config)
  | backoff
deriving DecidableEq

/-- State of the process.  `gates` has the channel of the current
`runDownloader` call first and those of earlier calls after it; `loggers`
counts the `startLogger` goroutines (none of them ever returns);
`backoffs`, `acquired` and `launched` count the 30-second sleeps of
`main`, the completed sends on `sem` and the executed `go` statements of
line 184. -/
structure State where
  pc : Pc
  gates : List Gate
  loggers : Nat
  backoffs : Nat
  acquired : Nat
  launched : Nat
deriving DecidableEq

/-- What happens next, with the values the environment supplies. -/
inductive Event where
  | call (load : Except String Config)
  | iterate (draws : List Nat)
  | acquire
  | spawn
  | interval (draw : Nat)
  | wake
  | backoffDone
  | exit (gate : Nat) (task : Nat) (o : Outcome)

/-- Go's `int` on a 64-bit platform: the value of `x` after two's-complement
wrap-around into `[-2^63, 2^63)`. -/
def wrapInt (x : Int) : Int :=
  (x + 2 ^ 63) % 2 ^ 64 - 2 ^ 63

/-- The process at start. -/
def State.init : State :=
  { pc := .main, gates := [], loggers := 0, backoffs := 0, acquired := 0, launched := 0 }

/-- A panic that leaves `runDownloader`: the deferred function of `main`
(lines 220-226) recovers it and sleeps 30 seconds. -/
def State.panic (s : State) : State :=
  { s with pc := .backoff, backoffs := s.backoffs + 1 }

/-- The deferred functions of a task goroutine (lines 185-190), whatever the
outcome of its body: first the recovery, then `<-sem`, which needs an
element in the channel. -/
def Gate.exit (g : Gate) (task : Nat) (_o : Outcome) : Option Gate :=
  match g.tasks[task]? with
  | some t =>
    if t.started ∧ 0 < g.sem then
      some { g with sem := g.sem - 1, tasks := g.tasks.eraseIdx task }
    else none
  | none => none

/-- One step of the process; `none` when the event cannot happen in the
state (a blocked send, a goroutine that is elsewhere).

* `call load`: `main` calls `runDownloader` (line 228), which runs lines
  155-167: `loadConfig` returns `load` and an error panics (line 159); the
  logger goroutine is started (line 165); `make` panics on a negative
  capacity and otherwise yields a new empty channel (line 167).
* `iterate draws`: lines 170-180: return when fewer than two endpoints are
  configured, else sample the two indices and look both up (an index out
  of range would panic).
* `acquire`: the send `sem <- struct{}{}` of line 183, possible when the
  channel is not full.
* `spawn`: the `go` statement of line 184.
* `interval draw`: line 210, where the argument of `rand.Intn` is computed
  in Go's wrapping `int` and `rand.Intn` panics on an argument that is not
  positive.
* `wake`: the end of the sleep of line 212.
* `backoffDone`: the end of the sleep of line 224.
* `exit gate task o`: a task goroutine ends with outcome `o` and runs its
  deferred functions. -/
def step (s : State) : Event → Option State
  | .call load =>
    match s.pc with
    | .main =>
      match load with
      | .error _ => some s.panic
      | .ok cfg =>
        let s1 := { s with loggers := s.loggers + 1 }
        if cfg.MaxConcurrency < 0 then some s1.panic
        else
          some { s1 with
            pc := .loop cfg
            gates := { cap := cfg.MaxConcurrency.toNat, sem := 0, tasks := [] } :: s1.gates }
    | _ => none
  | .iterate draws =>
    match s.pc with
    | .loop cfg =>
      if cfg.URLs.length < 2 then some { s with pc := .main }
      else
        match pickTwo draws with
        | none => none
        | some (idx1, idx2, _) =>
          match cfg.URLs[idx1]?, cfg.URLs[idx2]? with
          | some u1, some u2 => some { s with pc := .acquire cfg u1 [u2] }
          | _, _ => some s.panic
    | _ => none
  | .acquire =>
    match s.pc, s.gates with
    | .acquire cfg u rest, g :: gs =>
      if g.sem < g.cap then
        some { s with
          pc := .spawn cfg u rest
          gates := { g with sem := g.sem + 1,
                            tasks := { url := u, started := false } :: g.tasks } :: gs
          acquired := s.acquired + 1 }
      else none
    | _, _ => none
  | .spawn =>
    match s.pc, s.gates with
    | .spawn cfg _ rest, g :: gs =>
      let g1 := match g.tasks with
        | t :: ts => { g with tasks := { t with started := true } :: ts }
        | [] => g
      let pc1 := match rest with
        | [] => Pc.interval cfg
        | u1 :: rest1 => Pc.acquire cfg u1 rest1
      some { s with pc := pc1, gates := g1 :: gs, launched := s.launched + 1 }
    | _, _ => none
  | .interval _ =>
    match s.pc with
    | .interval cfg =>
      if wrapInt (cfg.MaxIntervalSec - cfg.MinIntervalSec + 1) ≤ 0 then some s.panic
      else some { s with pc := .sleeping cfg }
    | _ => none
  | .wake =>
    match s.pc with
    | .sleeping cfg => some { s with pc := .loop cfg }
    | _ => none
  | .backoffDone =>
    match s.pc with
    | .backoff => some { s with pc := .main }
    | _ => none
  | .exit gate task o =>
    match s.gates[gate]? with
    | some g =>
      match g.exit task o with
      | some g1 => some { s with gates := s.gates.set gate g1 }
      | none => none
    | none => none

/-- A run of the process: the events in order; `none` once one of them cannot
happen. -/
def run (s : State) : List Event → Option State
  | [] => some s
  | e :: es =>
    match step s e with
    | some s1 => run s1 es
    | none => none

/-! ## Invariant of the gates and sample configurations -/

/-- The configuration the main goroutine holds while it is inside
`runDownloader`. -/
def Pc.cfg? : Pc → Option Config
  | .main => none
  | .loop cfg => some cfg
  | .acquire cfg _ _ => some cfg
  | .spawn cfg _ _ => some cfg
  | .interval cfg => some cfg
  | .sleeping cfg => some cfg
  | .backoff => none

/-- Every channel holds one element per task that captured it and no more
than its capacity; the channel of the running `runDownloader` call has the
configured capacity. -/
def Inv (s : State) : Prop :=
  (∀ g ∈ s.gates, g.sem = g.tasks.length ∧ g.sem ≤ g.cap) ∧
  (∀ cfg, s.pc.cfg? = some cfg →
    ∃ g gs, s.gates = g :: gs ∧ (g.cap : Int) = cfg.MaxConcurrency)

/-- Scenario 1 of the specification: three endpoints, 1 Mbps, two slots, no
pause between iterations. -/
def scenarioConfig : Config :=
  { URLs := ["http://a/", "http://b/", "http://c/"]
    MinSpeedMbps := 1, MaxSpeedMbps := 1, MaxConcurrency := 2
    LogFile := "logs/traffic.log"
    MinBytesPerDownload := 0, MaxBytesPerDownload := 0
    MinIntervalSec := 0, MaxIntervalSec := 0 }

/-- A configuration with a speed of 1/32 Mbps: 4096 bytes per second. -/
def slowConfig : Config :=
  { scenarioConfig with MinSpeedMbps := 1 / 32, MaxSpeedMbps := 1 / 32 }

/-- Scenario 2 of the specification: exactly one endpoint. -/
def oneUrlConfig : Config :=
  { scenarioConfig with URLs := ["http://a/"] }

/-- The instant 2025-01-01 00:15:00 UTC in a location 5 h 30 min east of UTC
(local time 05:45:00). -/
def quarterPast : Time :=
  { abs := (63871286400 + 900) * nsPerSecond, offset := 19800 }

/-- A run of scenario 1: two tasks are launched, one fails, the loop goes
round and launches a third, and the first task ends in a recovered panic. -/
def gateTrace : List Event :=
  [.call (.ok scenarioConfig), .iterate [0, 1], .acquire, .spawn, .acquire, .spawn,
   .interval 0, .exit 0 1 (.failed "download error: reset"), .wake,
   .iterate [2, 2, 0], .acquire, .spawn, .exit 0 1 (.panicked "fault")]

/-- The state at the end of `gateTrace`. -/
def gateTraceEnd : State :=
  { pc := .acquire scenarioConfig "http://a/" []
    gates := [{ cap := 2, sem := 1, tasks := [{ url := "http://c/", started := true }] }]
    loggers := 1, backoffs := 0, acquired := 3, launched := 3 }

/-- A run with one endpoint configured: `runDownloader` is called, returns
at line 172, and is called again. -/
def restartTrace : List Event :=
  [.call (.ok oneUrlConfig), .iterate [], .call (.ok oneUrlConfig)]

/-- Whether an event is a call of `runDownloader` whose configuration
loads. -/
def Event.startsLogger : Event → Bool
  | .call (.ok _) => true
  | _ => false

/-- Number of Transfer Tasks alive in the process: the tasks of every
channel, those of earlier `runDownloader` calls included. -/
def State.liveTasks (s : State) : Nat :=
  (s.gates.map fun g => g.tasks.length).sum

/-- Number of occupied slots in the process: the elements buffered in every
channel. -/
def State.occupied (s : State) : Nat :=
  (s.gates.map fun g => g.sem).sum

/-- While `main` has recovered no panic of `runDownloader`, only the channel
of the running call has tasks: a call that returned had fewer than two
endpoints and launched nothing. -/
def Quiet (s : State) : Prop :=
  s.backoffs = 0 →
    (∀ g ∈ s.gates.tail, g.tasks = []) ∧
    match s.pc with
    | .main => ∀ g ∈ s.gates, g.tasks = []
    | .loop cfg => cfg.URLs.length < 2 → ∀ g ∈ s.gates, g.tasks = []
    | .acquire cfg _ _ => 2 ≤ cfg.URLs.length
    | .spawn cfg _ _ => 2 ≤ cfg.URLs.length
    | .interval cfg => 2 ≤ cfg.URLs.length
    | .sleeping cfg => 2 ≤ cfg.URLs.length
    | .backoff => False

/-- Scenario 1 with `min_interval_sec = 0` and `max_interval_sec = 2^63 - 1`:
the argument of `rand.Intn` at line 210 wraps to `-2^63`. -/
def wrapIntervalConfig : Config :=
  { scenarioConfig with MinIntervalSec := 0, MaxIntervalSec := 9223372036854775807 }

/-- Scenario 1 with `min_interval_sec = 5` and `max_interval_sec = 1`: the
argument of `rand.Intn` at line 210 is negative. -/
def badIntervalConfig : Config :=
  { scenarioConfig with MinIntervalSec := 5, MaxIntervalSec := 1 }

/-- A run with `badIntervalConfig`: two tasks are launched, line 210 panics,
`main` sleeps and calls `runDownloader` again, which launches two more
tasks on a new channel. -/
def panicRestartTrace : List Event :=
  [.call (.ok badIntervalConfig), .iterate [0, 1], .acquire, .spawn, .acquire, .spawn,
   .interval 0, .backoffDone,
   .call (.ok badIntervalConfig), .iterate [1, 2], .acquire, .spawn, .acquire, .spawn]

/-! ## Theorems: the shared counter -/

theorem Stats.add_totalBytes (s : Stats) (n : Nat) :
    (s.add n).totalBytes = (s.totalBytes + n) % uint64Size := by
  simp [Stats.add, Nat.add_mod]

theorem Stats.addAll_totalBytes (ns : List Nat) (s : Stats)
    (hs : s.totalBytes < uint64Size) :
    (s.addAll ns).totalBytes = (s.totalBytes + ns.sum) % uint64Size := by
  induction ns generalizing s with
  | nil => simp [Stats.addAll, Nat.mod_eq_of_lt hs]
  | cons n ns ih =>
    have hlt : (s.add n).totalBytes < uint64Size := by
      rw [Stats.add_totalBytes]
      exact Nat.mod_lt _ (by decide)
    have h := ih (s.add n) hlt
    simp only [Stats.addAll, List.foldl_cons, List.sum_cons] at h ⊢
    rw [h, Stats.add_totalBytes, Nat.mod_add_mod, Nat.add_assoc]

/-- C1 as stated fails: three `add` calls whose arguments are `int64` byte
counts summing to `2 ^ 64` are followed by a flush that reads 0. -/
theorem flush_exact_sum_counterexample :
    (Stats.flush ((Stats.flush { totalBytes := 0 }).2.addAll
        [9223372036854775807, 9223372036854775807, 2])).1 = 0 ∧
      ([9223372036854775807, 9223372036854775807, 2] : List Nat).sum
        = 18446744073709551616 ∧
      (Stats.flush ((Stats.flush { totalBytes := 0 }).2.addAll
        [9223372036854775807, 9223372036854775807, 2])).1
        ≠ ([9223372036854775807, 9223372036854775807, 2] : List Nat).sum := by
  decide

/-- C1, amended: after a flush, any run of `add(n)` calls followed by a flush
reads the sum of the `n` modulo `2 ^ 64` (the exact sum when it is below
`2 ^ 64`) and leaves the counter at 0, so that a second flush reads 0; and
`add(1000)`, `add(2000)`, flush reads 3000. -/
theorem flush_reads_sum_mod (s0 : Stats) (ns : List Nat) :
    (Stats.flush ((Stats.flush s0).2.addAll ns)).1 = ns.sum % uint64Size ∧
      (Stats.flush ((Stats.flush s0).2.addAll ns)).2.totalBytes = 0 ∧
      (ns.sum < uint64Size →
        (Stats.flush ((Stats.flush s0).2.addAll ns)).1 = ns.sum) ∧
      (Stats.flush (Stats.flush ((Stats.flush s0).2.addAll ns)).2).1 = 0 ∧
      (Stats.flush ((Stats.flush s0).2.addAll [1000, 2000])).1 = 3000 := by
  have h := Stats.addAll_totalBytes ns (Stats.flush s0).2 (by simp [Stats.flush, uint64Size])
  have h0 : (Stats.flush s0).2.totalBytes = 0 := rfl
  rw [h0, Nat.zero_add] at h
  refine ⟨h, rfl, ?_, rfl, by simp [Stats.flush, Stats.addAll, Stats.add, uint64Size]⟩
  intro hlt
  show ((Stats.flush s0).2.addAll ns).totalBytes = ns.sum
  rw [h, Nat.mod_eq_of_lt hlt]

/-! ## Theorems: the downloader -/

theorem ReadFrom_total (lastN : Nat) (lastErr : ReadErr) (chunks : List Nat)
    (lim : Limiter) (n : Nat) :
    ∃ r1, ReadFrom (chunks.length + 1)
        { reader := { chunks := chunks, lastN := lastN, lastErr := lastErr }, limiter := lim } n
      = some (n + chunks.sum + lastN, copyErr lastErr, r1) := by
  induction chunks generalizing lim n with
  | nil =>
    cases lastErr <;> by_cases h : lastN > 0 <;>
      simp [ReadFrom, rateLimitedReader.Read, Body.Read, copyErr, h]
  | cons c cs ih =>
    by_cases h : c > 0
    · obtain ⟨r1, hr⟩ := ih (lim.WaitN c).2 (n + c)
      refine ⟨r1, ?_⟩
      simp only [List.length_cons, List.sum_cons]
      rw [ReadFrom]
      simp only [rateLimitedReader.Read, Body.Read, h, if_true]
      rw [hr, Nat.add_assoc n c]
    · obtain ⟨r1, hr⟩ := ih lim (n + c)
      refine ⟨r1, ?_⟩
      simp only [List.length_cons, List.sum_cons]
      rw [ReadFrom]
      simp only [rateLimitedReader.Read, Body.Read, h, if_false]
      rw [hr, Nat.add_assoc n c]

theorem downloadFile_response (body : Body) (lim : Limiter) (s : Stats) :
    ∃ r, downloadFile (.response body) lim s = some r ∧
      r.stats = s.add (body.chunks.sum + body.lastN) ∧
      (r.err = none ↔ body.lastErr = .EOF) := by
  obtain ⟨chunks, lastN, lastErr⟩ := body
  obtain ⟨r1, hr⟩ := ReadFrom_total lastN lastErr chunks lim 0
  cases lastErr with
  | EOF =>
    refine ⟨{ err := none, stats := s.add (chunks.sum + lastN), limiter := r1.limiter }, ?_, rfl, by simp⟩
    simp [downloadFile, ioCopyDiscard, hr, copyErr]
  | other msg =>
    refine ⟨{ err := some ("download error: " ++ msg),
              stats := s.add (chunks.sum + lastN), limiter := r1.limiter }, ?_, rfl, by simp⟩
    simp [downloadFile, ioCopyDiscard, hr, copyErr]

/-- C2 as stated fails: with the counter at `2 ^ 64 - 1`, a task that reads one
byte leaves the counter at 0, not at `2 ^ 64`. -/
theorem downloadFile_counter_counterexample :
    (downloadFile (.response { chunks := [], lastN := 1, lastErr := .EOF })
        (NewLimiter 0 0) { totalBytes := 18446744073709551615 }).map
        (fun r => r.stats.totalBytes) = some 0 ∧
      (Transfer.response { chunks := [], lastN := 1, lastErr := .EOF }).bytesRead = 1 ∧
      (0 : Nat) ≠ 18446744073709551615 + 1 := by
  refine ⟨?_, rfl, by decide⟩
  simp [downloadFile, ioCopyDiscard, ReadFrom, rateLimitedReader.Read, Body.Read,
    Stats.add, uint64Size]

/-- C2, amended: for every transfer and every outcome of it, `downloadFile`
returns, and the shared counter (a `uint64`) afterwards is the counter before
plus the number of bytes read from the body, modulo `2 ^ 64`: the exact sum
when that is below `2 ^ 64`.  The task returns an error unless the body was
read to the end. -/
theorem downloadFile_counts_bytes_read (t : Transfer) (lim : Limiter) (s : Stats)
    (hs : s.totalBytes < uint64Size) :
    ∃ r, downloadFile t lim s = some r ∧
      r.stats.totalBytes = (s.totalBytes + t.bytesRead) % uint64Size ∧
      (s.totalBytes + t.bytesRead < uint64Size →
        r.stats.totalBytes = s.totalBytes + t.bytesRead) ∧
      (r.err = none ↔ ∃ body, t = .response body ∧ body.lastErr = .EOF) := by
  cases t with
  | newRequestFails err =>
    exact ⟨_, rfl, by simp [Transfer.bytesRead, Nat.mod_eq_of_lt hs],
      by simp [Transfer.bytesRead], by simp⟩
  | doFails err =>
    exact ⟨_, rfl, by simp [Transfer.bytesRead, Nat.mod_eq_of_lt hs],
      by simp [Transfer.bytesRead], by simp⟩
  | response body =>
    obtain ⟨r, hr, hstats, herr⟩ := downloadFile_response body lim s
    refine ⟨r, hr, ?_, ?_, ?_⟩
    · rw [hstats, Stats.add_totalBytes]; rfl
    · intro hlt
      rw [hstats, Stats.add_totalBytes]
      exact Nat.mod_eq_of_lt hlt
    · rw [herr]
      constructor
      · intro h; exact ⟨body, rfl, h⟩
      · rintro ⟨b, hb, hE⟩
        cases hb; exact hE

/-- Witness for C2: the connection drops after 500 bytes; the counter goes
from 7 to 507 and the task returns an error. -/
theorem downloadFile_counts_bytes_read_witness :
    (7 : Nat) < uint64Size ∧
      ∃ r, downloadFile
          (.response { chunks := [300, 200], lastN := 0, lastErr := .other "reset" })
          (NewLimiter 131072 131072) { totalBytes := 7 } = some r ∧
        r.stats.totalBytes = (7 + 500) % uint64Size ∧
        (7 + 500 < uint64Size → r.stats.totalBytes = 7 + 500) ∧
        (r.err = none ↔ ∃ body,
          Transfer.response { chunks := [300, 200], lastN := 0, lastErr := .other "reset" }
            = .response body ∧ body.lastErr = .EOF) :=
  ⟨by decide,
   downloadFile_counts_bytes_read
     (.response { chunks := [300, 200], lastN := 0, lastErr := .other "reset" })
     (NewLimiter 131072 131072) { totalBytes := 7 } (by decide)⟩

/-! ## Theorems: the limiter of a task -/

theorem goInt_natCast (n : Nat) : goInt (n : ℚ) = n := by
  have h : (0 : ℚ) ≤ (n : ℚ) := Nat.cast_nonneg n
  simp only [goInt, h, if_true]
  show ⌊(n : ℚ)⌋ = (n : Int)
  exact Int.floor_natCast n

/-- C8 as stated fails: with `min_speed = max_speed = 1` the limiter gets the
rate 131072, not 125000. -/
theorem taskLimiter_rate_counterexample :
    (taskLimiter scenarioConfig 0).limit = 131072 ∧
      (taskLimiter scenarioConfig 0).limit ≠ 125000 := by
  have h : (taskLimiter scenarioConfig 0).limit = 131072 := by
    simp only [taskLimiter, NewLimiter, scenarioConfig]
    norm_num
  rw [h]
  exact ⟨rfl, by norm_num⟩

/-- C8, amended: with `min_speed = max_speed = 1` Mbps and any draw, the
limiter of a task has the rate `1 * 1024 * 1024 / 8 = 131072` bytes per
second and the burst 131072, which is the integer part of its rate: one
second of bytes. -/
theorem taskLimiter_one_mbps (cfg : Config) (r : ℚ)
    (hmin : cfg.MinSpeedMbps = 1) (hmax : cfg.MaxSpeedMbps = 1) :
    (taskLimiter cfg r).limit = 131072 ∧
      (taskLimiter cfg r).burst = 131072 ∧
      (taskLimiter cfg r).burst = goInt ((taskLimiter cfg r).limit * 1) ∧
      (taskLimiter cfg r).debited = 0 := by
  have hl : (taskLimiter cfg r).limit = ((131072 : Nat) : ℚ) := by
    simp only [taskLimiter, NewLimiter, hmin, hmax]
    norm_num
  have hb : (taskLimiter cfg r).burst = goInt (taskLimiter cfg r).limit := rfl
  refine ⟨by rw [hl]; norm_num, ?_, by rw [mul_one]; exact hb, rfl⟩
  rw [hb, hl, goInt_natCast]
  rfl

/-- Witness for C8: scenario 1 of the specification, draw 1/2. -/
theorem taskLimiter_one_mbps_witness :
    scenarioConfig.MinSpeedMbps = 1 ∧ scenarioConfig.MaxSpeedMbps = 1 ∧
      (taskLimiter scenarioConfig (1 / 2)).limit = 131072 ∧
      (taskLimiter scenarioConfig (1 / 2)).burst = 131072 ∧
      (taskLimiter scenarioConfig (1 / 2)).burst
        = goInt ((taskLimiter scenarioConfig (1 / 2)).limit * 1) ∧
      (taskLimiter scenarioConfig (1 / 2)).debited = 0 :=
  ⟨rfl, rfl, taskLimiter_one_mbps scenarioConfig (1 / 2) rfl rfl⟩

/-! ## Theorems: the rate-limited reader -/

theorem taskLimiter_slow (r : ℚ) :
    taskLimiter slowConfig r = { limit := 4096, burst := 4096, debited := 0 } := by
  have hl : (taskLimiter slowConfig r).limit = ((4096 : Nat) : ℚ) := by
    simp only [taskLimiter, NewLimiter, slowConfig, scenarioConfig]
    norm_num
  have hb : (taskLimiter slowConfig r).burst = goInt (taskLimiter slowConfig r).limit := rfl
  rw [hl, goInt_natCast] at hb
  have hd : (taskLimiter slowConfig r).debited = 0 := rfl
  cases hL : taskLimiter slowConfig r with
  | mk limit burst debited =>
    rw [hL] at hl hb hd
    simp only at hl hb hd
    subst hl hb hd
    norm_num

theorem rateInf_ne_4096 : (4096 : ℚ) ≠ rateInf := by
  unfold rateInf
  norm_num

/-- C9 at the failing input: at 1/32 Mbps the limiter has burst 4096; a read
that returns 8192 bytes makes `WaitN` return its error, and `Read` returns
the 8192 bytes with nothing debited from the limiter. -/
theorem Read_over_burst_not_throttled :
    ((taskLimiter slowConfig 0).WaitN 8192).1
        = .error "rate: Wait(n) exceeds limiter's burst" ∧
      (rateLimitedReader.Read
        { reader := { chunks := [8192], lastN := 0, lastErr := .EOF },
          limiter := taskLimiter slowConfig 0 }).1 = 8192 ∧
      (rateLimitedReader.Read
        { reader := { chunks := [8192], lastN := 0, lastErr := .EOF },
          limiter := taskLimiter slowConfig 0 }).2.2.limiter.debited = 0 := by
  rw [taskLimiter_slow]
  have h := rateInf_ne_4096
  simp [Limiter.WaitN, rateLimitedReader.Read, Body.Read, h]

/-- When the read is no larger than the burst, `Read` returns after the
limiter has been debited by the number of bytes read. -/
theorem Read_within_burst_debits (body : Body) (lim : Limiter)
    (hn : ((body.Read).1 : Int) ≤ lim.burst) :
    (rateLimitedReader.Read { reader := body, limiter := lim }).2.2.limiter.debited
      = lim.debited + (body.Read).1 := by
  by_cases h0 : (body.Read).1 > 0
  · have hnot : ¬ (((body.Read).1 : Int) > lim.burst ∧ lim.limit ≠ rateInf) := by
      intro h; exact absurd h.1 (not_lt.mpr hn)
    simp [rateLimitedReader.Read, h0, Limiter.WaitN, hnot]
  · have hz : (body.Read).1 = 0 := by omega
    simp [rateLimitedReader.Read, hz]

/-! ## Theorems: the hour-boundary sleep -/

theorem Hour_pos : 0 < Hour := by decide

theorem sleepDuration_eq (now : Time) : sleepDuration now = Hour - now.abs % Hour := by
  have h : ¬ Hour ≤ 0 := by decide
  simp only [sleepDuration, Time.Truncate, h, if_false, Time.Add, Time.Sub]
  omega

/-- The sleep is positive and at most one hour, and it ends at the first
instant after `now` that is a whole number of hours since the zero time. -/
theorem sleepDuration_bounds (now : Time) :
    0 < sleepDuration now ∧ sleepDuration now ≤ Hour ∧
      (now.abs + sleepDuration now) % Hour = 0 ∧
      ∀ d, 0 < d → d < sleepDuration now → (now.abs + d) % Hour ≠ 0 := by
  have hpos := Hour_pos
  have h1 := Int.emod_nonneg now.abs (ne_of_gt hpos)
  have h2 := Int.emod_lt_of_pos now.abs hpos
  rw [sleepDuration_eq]
  refine ⟨by omega, by omega, ?_, ?_⟩
  · have h3 : now.abs + (Hour - now.abs % Hour) = Hour + Hour * (now.abs / Hour) := by
      have := Int.emod_add_ediv now.abs Hour
      omega
    rw [h3, Int.add_mul_emod_self_left, Int.emod_self]
  · intro d hd0 hd hmod
    have h3 := Int.emod_add_ediv now.abs Hour
    have h4 := Int.emod_add_ediv (now.abs + d) Hour
    rw [hmod] at h4
    have h5 : Hour * ((now.abs + d) / Hour - now.abs / Hour) = now.abs % Hour + d := by
      rw [Int.mul_sub]; omega
    generalize (now.abs + d) / Hour - now.abs / Hour = k at h5
    have hk : 0 < k := by
      by_contra hk
      have : Hour * k ≤ 0 := Int.mul_nonpos_of_nonneg_of_nonpos (le_of_lt hpos) (by omega)
      omega
    have : Hour * 1 ≤ Hour * k := Int.mul_le_mul_of_nonneg_left (by omega) (le_of_lt hpos)
    omega

/-- In a location whose offset is a whole number of hours the sleep ends on a
wall-clock hour boundary. -/
theorem sleepDuration_onTheHour (now : Time) (k : Int) (hoff : now.offset = 3600 * k) :
    (now.Add (sleepDuration now)).onTheHour := by
  obtain ⟨_, _, hmod, _⟩ := sleepDuration_bounds now
  have hdvd : Hour ∣ (now.Add (sleepDuration now)).wall := by
    have h1 : Hour ∣ now.abs + sleepDuration now := Int.dvd_of_emod_eq_zero hmod
    have h2 : Hour ∣ now.offset * nsPerSecond := ⟨k, by rw [hoff]; simp [Hour]; ring⟩
    exact Int.dvd_add h1 h2
  obtain ⟨m, hm⟩ := hdvd
  simp only [Time.onTheHour, Time.Minute, Time.Second, Time.Nanosecond, hm]
  have e1 : Hour * m / nsPerSecond = 3600 * m := by
    simp only [Hour, nsPerSecond]
    omega
  have e2 : Hour * m % nsPerSecond = 0 := by
    simp only [Hour, nsPerSecond]
    omega
  rw [e1, e2]
  refine ⟨?_, ?_, rfl⟩ <;> omega

/-- C6 at the failing input: at local time 05:45:00 in a location 5 h 30 min
east of UTC the computed sleep is 45 minutes and ends at local 06:30:00,
which is not an hour boundary; the first hour boundary after `now`, local
06:00:00, is 15 minutes away. -/
theorem sleepDuration_half_hour_zone :
    sleepDuration quarterPast = 45 * 60 * nsPerSecond ∧
      (quarterPast.Add (sleepDuration quarterPast)).Minute = 30 ∧
      ¬ (quarterPast.Add (sleepDuration quarterPast)).onTheHour ∧
      (quarterPast.Add (15 * 60 * nsPerSecond)).onTheHour ∧
      15 * 60 * nsPerSecond < sleepDuration quarterPast := by
  decide

/-! ## Theorems: sampling two endpoints -/

theorem resample_spec (idx1 : Nat) (draws : List Nat) (idx2 i2 : Nat) (rest : List Nat)
    (h : resample idx1 idx2 draws = some (i2, rest)) :
    i2 ≠ idx1 ∧ (i2 = idx2 ∨ i2 ∈ draws) := by
  induction draws generalizing idx2 with
  | nil =>
    by_cases he : idx2 = idx1
    · simp [resample, he] at h
    · simp only [resample, he, if_false, Option.some.injEq, Prod.mk.injEq] at h
      exact ⟨h.1 ▸ he, Or.inl h.1.symm⟩
  | cons d ds ih =>
    by_cases he : idx2 = idx1
    · simp only [resample, he, if_true] at h
      obtain ⟨h1, h2⟩ := ih d h
      refine ⟨h1, Or.inr ?_⟩
      rcases h2 with h2 | h2
      · exact h2 ▸ List.mem_cons_self _ _
      · exact List.mem_cons_of_mem _ h2
    · simp only [resample, he, if_false, Option.some.injEq, Prod.mk.injEq] at h
      exact ⟨h.1 ▸ he, Or.inl h.1.symm⟩

/-- The re-sampling loop is left as soon as a draw differs from `idx1`. -/
theorem resample_exits (idx1 : Nat) (draws : List Nat) (idx2 : Nat)
    (h : idx2 ≠ idx1 ∨ ∃ d ∈ draws, d ≠ idx1) :
    (resample idx1 idx2 draws).isSome := by
  induction draws generalizing idx2 with
  | nil =>
    rcases h with h | ⟨d, hd, _⟩
    · simp [resample, h]
    · simp at hd
  | cons d ds ih =>
    by_cases he : idx2 = idx1
    · simp only [resample, he, if_true]
      apply ih
      rcases h with h | ⟨x, hx, hne⟩
      · exact absurd he h
      · rcases List.mem_cons.mp hx with hx | hx
        · exact Or.inl (hx ▸ hne)
        · exact Or.inr ⟨x, hx, hne⟩
    · simp [resample, he]

/-- The sampling of lines 175-179 yields a pair as soon as one of the draws
after the first differs from the first. -/
theorem pickTwo_exits (idx1 idx2 : Nat) (draws : List Nat)
    (h : ∃ d ∈ idx2 :: draws, d ≠ idx1) :
    (pickTwo (idx1 :: idx2 :: draws)).isSome := by
  have hr : (resample idx1 idx2 draws).isSome := by
    apply resample_exits
    obtain ⟨d, hd, hne⟩ := h
    rcases List.mem_cons.mp hd with hd | hd
    · exact Or.inl (hd ▸ hne)
    · exact Or.inr ⟨d, hd, hne⟩
  obtain ⟨⟨i2, rest⟩, hx⟩ := Option.isSome_iff_exists.mp hr
  simp [pickTwo, hx]

/-- C4: for a pool of length at least 2 and draws that all lie below the
length, whenever the re-sampling loop is left the two indices differ and
both are below the length, so both pool lookups succeed. -/
theorem pickTwo_distinct_in_range (urls : List String) (draws : List Nat)
    (idx1 idx2 : Nat) (rest : List Nat)
    (hlen : 2 ≤ urls.length) (hdraws : ∀ d ∈ draws, d < urls.length)
    (hexit : pickTwo draws = some (idx1, idx2, rest)) :
    idx1 ≠ idx2 ∧ idx1 < urls.length ∧ idx2 < urls.length ∧
      ∃ u1 u2, urls[idx1]? = some u1 ∧ urls[idx2]? = some u2 := by
  have _ := hlen
  match draws, hdraws, hexit with
  | d1 :: d2 :: ds, hdraws, hexit =>
    simp only [pickTwo] at hexit
    cases hr : resample d1 d2 ds with
    | none => simp [hr] at hexit
    | some p =>
      obtain ⟨i2, rest1⟩ := p
      simp only [hr, Option.some.injEq, Prod.mk.injEq] at hexit
      obtain ⟨h1, h2, _⟩ := hexit
      subst h1 h2
      obtain ⟨hne, hmem⟩ := resample_spec d1 ds d2 i2 rest1 hr
      have hd1 : d1 < urls.length := hdraws d1 (List.mem_cons_self _ _)
      have hi2 : i2 < urls.length := by
        rcases hmem with hmem | hmem
        · exact hmem ▸ hdraws d2 (List.mem_cons_of_mem _ (List.mem_cons_self _ _))
        · exact hdraws i2 (List.mem_cons_of_mem _ (List.mem_cons_of_mem _ hmem))
      exact ⟨fun h => hne h.symm, hd1, hi2,
        urls[d1], urls[i2],
        List.getElem?_eq_getElem hd1, List.getElem?_eq_getElem hi2⟩
  | [], _, hexit => simp [pickTwo] at hexit
  | [_], _, hexit => simp [pickTwo] at hexit

/-- Witness for C4: three endpoints, draws 1, 1, 1, 2: the second index is
re-sampled twice and the pair (1, 2) is selected. -/
theorem pickTwo_distinct_in_range_witness :
    2 ≤ scenarioConfig.URLs.length ∧
      (∀ d ∈ [1, 1, 1, 2], d < scenarioConfig.URLs.length) ∧
      pickTwo [1, 1, 1, 2] = some (1, 2, []) ∧
      ((1 : Nat) ≠ 2 ∧ 1 < scenarioConfig.URLs.length ∧ 2 < scenarioConfig.URLs.length ∧
        ∃ u1 u2, scenarioConfig.URLs[1]? = some u1 ∧
          scenarioConfig.URLs[2]? = some u2) :=
  ⟨by decide, by decide, by decide,
   pickTwo_distinct_in_range scenarioConfig.URLs [1, 1, 1, 2] 1 2 []
     (by decide) (by decide) (by decide)⟩

/-! ## Theorems: the log file and its rotation -/

theorem countLines_foldl (content : Bytes) (k : Nat) :
    content.foldl (fun lines b => if b = newline then lines + 1 else lines) k
      = k + content.count newline := by
  induction content generalizing k with
  | nil => simp
  | cons b bs ih =>
    by_cases hb : b = newline
    · subst hb
      simp only [List.foldl_cons, if_true, ih, List.count_cons_self]
      omega
    · simp only [List.foldl_cons, hb, if_false, ih]
      rw [List.count_cons_of_ne (fun h => hb h.symm)]

theorem countLines_eq_count (content : Bytes) : countLines content = content.count newline := by
  simp [countLines, countLines_foldl]

theorem countLines_append (a b : Bytes) : countLines (a ++ b) = countLines a + countLines b := by
  simp [countLines_eq_count]

theorem rotatedPath_ne (path : String) (unix : Int) : rotatedPath path unix ≠ path := by
  intro h
  have hl := congrArg String.length h
  have h1 : (".").length = 1 := by decide
  simp only [rotatedPath, String.length_append, h1] at hl
  omega

/-- What `appendLog` does to an existing log file. -/
theorem appendLog_existing (path : String) (content line : Bytes) (unix : Int) (fs : FS)
    (hpath : path ≠ "") (hfile : fs path = some content) :
    appendLog path line unix fs =
      if 1000 < countLines (content ++ line) then
        Rename (fs.store path (content ++ line)) path (rotatedPath path unix)
      else fs.store path (content ++ line) := by
  simp [appendLog, OpenFile, hpath, hfile, WriteString, ReadFile, FS.store]

/-- What `appendLog` does when there is no file at the path. -/
theorem appendLog_fresh (path : String) (line : Bytes) (unix : Int) (fs : FS)
    (hpath : path ≠ "") (hfile : fs path = none) (hline : countLines line ≤ 1000) :
    appendLog path line unix fs path = some line := by
  have h : ¬ 1000 < countLines line := by omega
  simp [appendLog, OpenFile, hpath, hfile, WriteString, ReadFile, FS.store, h]

/-- C5: for a log file with any content and any appended line, `appendLog`
renames the file exactly when the file holds more than 1000 newline bytes
after the append, to the path followed by `.` and the Unix time; otherwise
the file stays, with the line appended.  Appending one line to a 1000-line
file leaves no file at the path and the 1001 lines at the suffixed path,
and the next append of a line creates a file at the path that holds
exactly that line. -/
theorem appendLog_rotation (path : String) (content line : Bytes) (unix : Int) (fs : FS)
    (hpath : path ≠ "") (hfile : fs path = some content) :
    (appendLog path line unix fs path = none ↔ 1000 < countLines (content ++ line)) ∧
      (1000 < countLines (content ++ line) →
        appendLog path line unix fs
            = Rename (fs.store path (content ++ line)) path (rotatedPath path unix) ∧
          appendLog path line unix fs (rotatedPath path unix) = some (content ++ line)) ∧
      (countLines (content ++ line) ≤ 1000 →
        appendLog path line unix fs = fs.store path (content ++ line)) ∧
      rotatedPath path unix = path ++ "." ++ toString unix ∧
      (countLines content = 1000 → countLines line = 1 →
        appendLog path line unix fs path = none ∧
          appendLog path line unix fs (rotatedPath path unix) = some (content ++ line) ∧
          countLines (content ++ line) = 1001 ∧
          ∀ (next : Bytes) (unix2 : Int), countLines next = 1 →
            appendLog path next unix2 (appendLog path line unix fs) path = some next) := by
  have hex := appendLog_existing path content line unix fs hpath hfile
  have hne := rotatedPath_ne path unix
  have hrot : 1000 < countLines (content ++ line) →
      appendLog path line unix fs path = none ∧
        appendLog path line unix fs (rotatedPath path unix) = some (content ++ line) := by
    intro h
    rw [hex, if_pos h]
    constructor
    · simp [Rename, Ne.symm hne]
    · simp [Rename, FS.store]
  refine ⟨⟨?_, fun h => (hrot h).1⟩, ?_, ?_, rfl, ?_⟩
  · intro hnone
    by_contra h
    rw [hex, if_neg h] at hnone
    simp [FS.store] at hnone
  · intro h
    exact ⟨by rw [hex, if_pos h], (hrot h).2⟩
  · intro h
    rw [hex, if_neg (by omega)]
  · intro hc hl
    have hcount : countLines (content ++ line) = 1001 := by
      rw [countLines_append, hc, hl]
    have hgt : 1000 < countLines (content ++ line) := by omega
    refine ⟨(hrot hgt).1, (hrot hgt).2, hcount, ?_⟩
    intro next unix2 hnext
    exact appendLog_fresh path next unix2 _ hpath (hrot hgt).1 (by omega)

/-- Witness for C5: a log file of 1000 empty lines. -/
theorem appendLog_rotation_witness :
    ("traffic.log" ≠ "") ∧
      (FS.store (fun _ => none) "traffic.log" (List.replicate 1000 newline)) "traffic.log"
        = some (List.replicate 1000 newline) ∧
      countLines (List.replicate 1000 newline) = 1000 ∧
      countLines [65, newline] = 1 ∧
      appendLog "traffic.log" [65, newline] 1735689600
        (FS.store (fun _ => none) "traffic.log" (List.replicate 1000 newline)) "traffic.log"
        = none ∧
      appendLog "traffic.log" [65, newline] 1735689600
        (FS.store (fun _ => none) "traffic.log" (List.replicate 1000 newline))
        "traffic.log.1735689600"
        = some (List.replicate 1000 newline ++ [65, newline]) :=
  have hc : countLines (List.replicate 1000 newline) = 1000 := by
    rw [countLines_eq_count, List.count_replicate_self]
  have hl : countLines [65, newline] = 1 := by decide
  have h := (appendLog_rotation "traffic.log" (List.replicate 1000 newline) [65, newline]
    1735689600 (FS.store (fun _ => none) "traffic.log" (List.replicate 1000 newline))
    (by decide) (if_pos rfl)).2.2.2.2 hc hl
  ⟨by decide, if_pos rfl, hc, hl, h.1, h.2.1⟩

/-! ## Theorems: the admission gate -/

theorem Gate.exit_spec (g g1 : Gate) (task : Nat) (o : Outcome)
    (h : g.exit task o = some g1) :
    task < g.tasks.length ∧ 0 < g.sem ∧ g1.cap = g.cap ∧ g1.sem = g.sem - 1 ∧
      g1.tasks.length = g.tasks.length - 1 := by
  unfold Gate.exit at h
  cases ht : g.tasks[task]? with
  | none => simp [ht] at h
  | some t =>
    have hlt : task < g.tasks.length := by
      obtain ⟨hlt, _⟩ := List.getElem?_eq_some.mp ht
      exact hlt
    rw [ht] at h
    by_cases hc : t.started = true ∧ 0 < g.sem
    · simp only [hc, and_self, if_true, Option.some.injEq] at h
      subst h
      exact ⟨hlt, hc.2, rfl, rfl, List.length_eraseIdx_of_lt hlt⟩
    · simp [hc] at h

theorem Gate.exit_ok (g g1 : Gate) (task : Nat) (o : Outcome)
    (hg : g.sem = g.tasks.length ∧ g.sem ≤ g.cap) (h : g.exit task o = some g1) :
    g1.sem = g1.tasks.length ∧ g1.sem ≤ g1.cap := by
  obtain ⟨_, _, h1, h2, h3⟩ := Gate.exit_spec g g1 task o h
  omega

/-- The deferred `<-sem` of a started task never blocks, whatever the
outcome of the task. -/
theorem Gate.exit_enabled (g : Gate) (task : Nat) (t : Task) (o : Outcome)
    (hg : g.sem = g.tasks.length) (ht : g.tasks[task]? = some t)
    (hs : t.started = true) : (g.exit task o).isSome := by
  have hlt : task < g.tasks.length := by
    obtain ⟨hlt, _⟩ := List.getElem?_eq_some.mp ht
    exact hlt
  have hpos : 0 < g.sem := by omega
  simp [Gate.exit, ht, hs, hpos]

theorem Inv_init : Inv State.init := by
  constructor
  · intro g hg
    simp [State.init] at hg
  · intro cfg h
    simp [State.init, Pc.cfg?] at h

theorem Inv_panic (s : State) (h : Inv s) : Inv s.panic := by
  refine ⟨h.1, ?_⟩
  intro cfg hc
  simp [State.panic, Pc.cfg?] at hc

theorem Inv_set_pc (s : State) (pc : Pc) (h : Inv s)
    (hpc : ∀ cfg, pc.cfg? = some cfg → s.pc.cfg? = some cfg) :
    Inv { s with pc := pc } :=
  ⟨h.1, fun cfg hc => h.2 cfg (hpc cfg hc)⟩

theorem step_Inv (s s1 : State) (e : Event) (h : Inv s) (hstep : step s e = some s1) :
    Inv s1 := by
  cases e with
  | call load =>
    cases hpc : s.pc <;> simp only [step, hpc] at hstep <;>
      try (exact Option.noConfusion hstep)
    cases load with
    | error err =>
      simp only [Option.some.injEq] at hstep
      subst hstep
      exact Inv_panic s h
    | ok cfg =>
      by_cases hneg : cfg.MaxConcurrency < 0
      · simp only [hneg, if_true, Option.some.injEq] at hstep
        subst hstep
        exact Inv_panic _ ⟨h.1, fun c hc => by simp [hpc, Pc.cfg?] at hc⟩
      · simp only [hneg, if_false, Option.some.injEq] at hstep
        subst hstep
        constructor
        · intro g hg
          rcases List.mem_cons.mp hg with hg | hg
          · subst hg
            simp
          · exact h.1 g hg
        · intro c hc
          simp only [Pc.cfg?, Option.some.injEq] at hc
          subst hc
          exact ⟨_, _, rfl, Int.toNat_of_nonneg (not_lt.mp hneg)⟩
  | iterate draws =>
    cases hpc : s.pc <;> simp only [step, hpc] at hstep <;>
      try (exact Option.noConfusion hstep)
    rename_i cfg
    by_cases hlen : cfg.URLs.length < 2
    · simp only [hlen, if_true, Option.some.injEq] at hstep
      subst hstep
      exact Inv_set_pc s _ h (fun c hc => by simp [Pc.cfg?] at hc)
    · simp only [hlen, if_false] at hstep
      cases hp : pickTwo draws with
      | none => simp [hp] at hstep
      | some p =>
        obtain ⟨idx1, idx2, rest⟩ := p
        simp only [hp] at hstep
        cases h1 : cfg.URLs[idx1]? <;> cases h2 : cfg.URLs[idx2]? <;>
          simp only [h1, h2, Option.some.injEq] at hstep <;> subst hstep
        · exact Inv_panic s h
        · exact Inv_panic s h
        · exact Inv_panic s h
        · exact Inv_set_pc s _ h (fun c hc => by simpa [hpc, Pc.cfg?] using hc)
  | acquire =>
    cases hpc : s.pc <;> cases hgs : s.gates <;>
      simp only [step, hpc, hgs] at hstep <;>
      try (exact Option.noConfusion hstep)
    rename_i cfg u rest g gs
    by_cases hlt : g.sem < g.cap
    · simp only [hlt, if_true, Option.some.injEq] at hstep
      subst hstep
      have hg := h.1 g (by rw [hgs]; exact List.mem_cons_self _ _)
      constructor
      · intro g1 hg1
        rcases List.mem_cons.mp hg1 with hg1 | hg1
        · subst hg1
          simp only [List.length_cons]
          omega
        · exact h.1 g1 (by rw [hgs]; exact List.mem_cons_of_mem _ hg1)
      · intro c hc
        obtain ⟨g0, gs0, he, hcap⟩ := h.2 c (by simpa [hpc, Pc.cfg?] using hc)
        rw [hgs] at he
        obtain ⟨rfl, rfl⟩ := List.cons.inj he
        exact ⟨_, _, rfl, hcap⟩
    · simp [hlt] at hstep
  | spawn =>
    cases hpc : s.pc <;> cases hgs : s.gates <;>
      simp only [step, hpc, hgs] at hstep <;>
      try (exact Option.noConfusion hstep)
    rename_i cfg u rest g gs
    simp only [Option.some.injEq] at hstep
    subst hstep
    have hg := h.1 g (by rw [hgs]; exact List.mem_cons_self _ _)
    have hcap : ∀ c, some cfg = some c → (g.cap : Int) = c.MaxConcurrency := by
      intro c hc
      obtain ⟨g0, gs0, he, hcap⟩ := h.2 c (by simpa [hpc, Pc.cfg?] using hc)
      rw [hgs] at he
      obtain ⟨rfl, rfl⟩ := List.cons.inj he
      exact hcap
    constructor
    · intro g1 hg1
      rcases List.mem_cons.mp hg1 with hg1 | hg1
      · subst hg1
        cases hts : g.tasks with
        | nil => simpa [hts] using hg
        | cons t ts => simpa [hts] using hg
      · exact h.1 g1 (by rw [hgs]; exact List.mem_cons_of_mem _ hg1)
    · intro c hc
      have hc1 : some cfg = some c := by
        cases rest <;> simpa [Pc.cfg?] using hc
      refine ⟨_, _, rfl, ?_⟩
      have := hcap c hc1
      cases hts : g.tasks <;> simpa [hts] using this
  | interval draw =>
    cases hpc : s.pc <;> simp only [step, hpc] at hstep <;>
      try (exact Option.noConfusion hstep)
    rename_i cfg
    by_cases hle : wrapInt (cfg.MaxIntervalSec - cfg.MinIntervalSec + 1) ≤ 0
    · simp only [hle, if_true, Option.some.injEq] at hstep
      subst hstep
      exact Inv_panic s h
    · simp only [hle, if_false, Option.some.injEq] at hstep
      subst hstep
      exact Inv_set_pc s _ h (fun c hc => by simpa [hpc, Pc.cfg?] using hc)
  | wake =>
    cases hpc : s.pc <;> simp only [step, hpc] at hstep <;>
      try (exact Option.noConfusion hstep)
    simp only [Option.some.injEq] at hstep
    subst hstep
    exact Inv_set_pc s _ h (fun c hc => by simpa [hpc, Pc.cfg?] using hc)
  | backoffDone =>
    cases hpc : s.pc <;> simp only [step, hpc] at hstep <;>
      try (exact Option.noConfusion hstep)
    simp only [Option.some.injEq] at hstep
    subst hstep
    exact Inv_set_pc s _ h (fun c hc => by simp [Pc.cfg?] at hc)
  | exit gate task o =>
    simp only [step] at hstep
    cases hg : s.gates[gate]? with
    | none => simp [hg] at hstep
    | some g =>
      simp only [hg] at hstep
      cases hx : g.exit task o with
      | none => simp [hx] at hstep
      | some g1 =>
        simp only [hx, Option.some.injEq] at hstep
        subst hstep
        have hmem : g ∈ s.gates := List.getElem?_mem hg
        have hspec := Gate.exit_spec g g1 task o hx
        constructor
        · intro g2 hg2
          rcases List.mem_or_eq_of_mem_set hg2 with hg2 | hg2
          · exact h.1 g2 hg2
          · subst hg2
            exact Gate.exit_ok g g2 task o (h.1 g hmem) hx
        · intro c hc
          obtain ⟨g0, gs0, he, hcap⟩ := h.2 c hc
          simp only [he]
          cases gate with
          | zero =>
            rw [he] at hg
            simp only [List.getElem?_cons_zero, Option.some.injEq] at hg
            subst hg
            exact ⟨g1, gs0, rfl, by rw [hspec.2.2.1]; exact hcap⟩
          | succ n => exact ⟨g0, _, rfl, hcap⟩

theorem run_Inv (events : List Event) (s s1 : State) (h : Inv s)
    (hrun : run s events = some s1) : Inv s1 := by
  induction events generalizing s with
  | nil =>
    simp only [run, Option.some.injEq] at hrun
    exact hrun ▸ h
  | cons e es ih =>
    simp only [run] at hrun
    cases hs : step s e with
    | none => simp [hs] at hrun
    | some s2 =>
      rw [hs] at hrun
      exact ih s2 (step_Inv s s2 e h hs) hrun

theorem Gate.exit_none_of_empty (g : Gate) (task : Nat) (o : Outcome)
    (h : g.tasks = []) : g.exit task o = none := by
  simp [Gate.exit, h]

theorem Quiet_init : Quiet State.init := by
  intro _
  simp [State.init]

theorem Quiet_panic (s : State) : Quiet s.panic := by
  intro hb
  simp [State.panic] at hb

theorem step_Quiet (s s1 : State) (e : Event) (hq : Quiet s) (hstep : step s e = some s1) :
    Quiet s1 := by
  cases e with
  | call load =>
    cases hpc : s.pc <;> simp only [step, hpc] at hstep <;>
      try (exact Option.noConfusion hstep)
    cases load with
    | error err =>
      simp only [Option.some.injEq] at hstep
      subst hstep
      exact Quiet_panic s
    | ok cfg =>
      by_cases hneg : cfg.MaxConcurrency < 0
      · simp only [hneg, if_true, Option.some.injEq] at hstep
        subst hstep
        exact Quiet_panic _
      · simp only [hneg, if_false, Option.some.injEq] at hstep
        subst hstep
        intro hb
        have h := hq hb
        simp only [hpc] at h
        refine ⟨fun g hg => h.2 g hg, fun _ g hg => ?_⟩
        rcases List.mem_cons.mp hg with hg | hg
        · subst hg; rfl
        · exact h.2 g hg
  | iterate draws =>
    cases hpc : s.pc <;> simp only [step, hpc] at hstep <;>
      try (exact Option.noConfusion hstep)
    rename_i cfg
    by_cases hlen : cfg.URLs.length < 2
    · simp only [hlen, if_true, Option.some.injEq] at hstep
      subst hstep
      intro hb
      have h := hq hb
      simp only [hpc] at h
      exact ⟨h.1, h.2 hlen⟩
    · simp only [hlen, if_false] at hstep
      cases hp : pickTwo draws with
      | none => simp [hp] at hstep
      | some p =>
        obtain ⟨idx1, idx2, rest⟩ := p
        simp only [hp] at hstep
        cases h1 : cfg.URLs[idx1]? <;> cases h2 : cfg.URLs[idx2]? <;>
          simp only [h1, h2, Option.some.injEq] at hstep <;> subst hstep
        · exact Quiet_panic s
        · exact Quiet_panic s
        · exact Quiet_panic s
        · intro hb
          have h := hq hb
          exact ⟨h.1, not_lt.mp hlen⟩
  | acquire =>
    cases hpc : s.pc <;> cases hgs : s.gates <;>
      simp only [step, hpc, hgs] at hstep <;>
      try (exact Option.noConfusion hstep)
    rename_i cfg u rest g gs
    by_cases hlt : g.sem < g.cap
    · simp only [hlt, if_true, Option.some.injEq] at hstep
      subst hstep
      intro hb
      have h := hq hb
      simp only [hpc, hgs, List.tail_cons] at h
      exact ⟨h.1, h.2⟩
    · simp [hlt] at hstep
  | spawn =>
    cases hpc : s.pc <;> cases hgs : s.gates <;>
      simp only [step, hpc, hgs] at hstep <;>
      try (exact Option.noConfusion hstep)
    rename_i cfg u rest g gs
    simp only [Option.some.injEq] at hstep
    subst hstep
    intro hb
    have h := hq hb
    simp only [hpc, hgs, List.tail_cons] at h
    refine ⟨h.1, ?_⟩
    cases rest <;> exact h.2
  | interval draw =>
    cases hpc : s.pc <;> simp only [step, hpc] at hstep <;>
      try (exact Option.noConfusion hstep)
    rename_i cfg
    by_cases hle : wrapInt (cfg.MaxIntervalSec - cfg.MinIntervalSec + 1) ≤ 0
    · simp only [hle, if_true, Option.some.injEq] at hstep
      subst hstep
      exact Quiet_panic s
    · simp only [hle, if_false, Option.some.injEq] at hstep
      subst hstep
      intro hb
      have h := hq hb
      simp only [hpc] at h
      exact ⟨h.1, h.2⟩
  | wake =>
    cases hpc : s.pc <;> simp only [step, hpc] at hstep <;>
      try (exact Option.noConfusion hstep)
    simp only [Option.some.injEq] at hstep
    subst hstep
    intro hb
    have h := hq hb
    simp only [hpc] at h
    exact ⟨h.1, fun hlt => absurd h.2 (not_le.mpr hlt)⟩
  | backoffDone =>
    cases hpc : s.pc <;> simp only [step, hpc] at hstep <;>
      try (exact Option.noConfusion hstep)
    simp only [Option.some.injEq] at hstep
    subst hstep
    intro hb
    have h := hq hb
    simp only [hpc] at h
    exact absurd h.2 id
  | exit gate task o =>
    simp only [step] at hstep
    cases hg : s.gates[gate]? with
    | none => simp [hg] at hstep
    | some g =>
      simp only [hg] at hstep
      cases hx : g.exit task o with
      | none => simp [hx] at hstep
      | some g1 =>
        simp only [hx, Option.some.injEq] at hstep
        subst hstep
        have hne : g.tasks ≠ [] := by
          intro he
          rw [Gate.exit_none_of_empty g task o he] at hx
          exact Option.noConfusion hx
        have hmem : g ∈ s.gates := List.getElem?_mem hg
        intro hb
        have h := hq hb
        have htail : (s.gates.set gate g1).tail = s.gates.tail := by
          cases hgs : s.gates with
          | nil => simp
          | cons g0 gs =>
            cases gate with
            | zero => simp
            | succ n =>
              rw [hgs] at hg
              simp only [List.getElem?_cons_succ] at hg
              have : g ∈ s.gates.tail := by
                rw [hgs]
                exact List.getElem?_mem hg
              exact absurd (h.1 g this) hne
        refine ⟨by rw [htail]; exact h.1, ?_⟩
        cases hpc : s.pc <;> simp only [hpc] at h ⊢
        · exact absurd (h.2 g hmem) hne
        · intro hlt
          exact absurd (h.2 hlt g hmem) hne
        · exact h.2
        · exact h.2
        · exact h.2
        · exact h.2
        · exact h.2

theorem run_Quiet (events : List Event) (s s1 : State) (h : Quiet s)
    (hrun : run s events = some s1) : Quiet s1 := by
  induction events generalizing s with
  | nil =>
    simp only [run, Option.some.injEq] at hrun
    exact hrun ▸ h
  | cons e es ih =>
    simp only [run] at hrun
    cases hs : step s e with
    | none => simp [hs] at hrun
    | some s2 =>
      rw [hs] at hrun
      exact ih s2 (step_Quiet s s2 e h hs) hrun

theorem sum_lengths_eq_zero (gs : List Gate) (h : ∀ g ∈ gs, g.tasks = []) :
    (gs.map fun g => g.tasks.length).sum = 0 := by
  induction gs with
  | nil => rfl
  | cons g gs ih =>
    have hg : g.tasks = [] := h g (List.mem_cons_self _ _)
    have := ih (fun x hx => h x (List.mem_cons_of_mem _ hx))
    simp only [List.map_cons, List.sum_cons, hg, List.length_nil, this]

theorem occupied_eq_liveTasks (gs : List Gate) (h : ∀ g ∈ gs, g.sem = g.tasks.length) :
    (gs.map fun g => g.sem).sum = (gs.map fun g => g.tasks.length).sum := by
  induction gs with
  | nil => rfl
  | cons g gs ih =>
    have hg := h g (List.mem_cons_self _ _)
    have := ih (fun x hx => h x (List.mem_cons_of_mem _ hx))
    simp only [List.map_cons, List.sum_cons, hg, this]

/-- C3 as stated fails: with `min_interval_sec = 5` and `max_interval_sec = 1`
line 210 panics after two tasks were launched, `main` recovers and calls
`runDownloader` again, and the new call admits two more tasks on its own
channel: four Transfer Tasks hold a slot while `max_concurrency` is 2. -/
theorem live_tasks_exceed_cap_counterexample :
    (run State.init panicRestartTrace).map
        (fun s => (s.liveTasks, s.occupied, s.pc.cfg?.map Config.MaxConcurrency))
      = some (4, 4, some 2) ∧ ¬ ((4 : Int) ≤ 2) := by
  decide

/-- C3, amended: in every state the process reaches, the number of occupied
slots equals the number of live Transfer Tasks; each `sem` channel holds
one element per task that acquired it and has not finished, and no more
than its capacity, which is `max_concurrency` for the running
`runDownloader` call; the number of live tasks is at most `max_concurrency`
as long as `main` has recovered no panic of `runDownloader`; and a started
task can always finish, by any outcome, which takes its element out of the
channel, so no exit path leaks a slot. -/
theorem gate_slots_eq_live_tasks (events : List Event) (s : State)
    (hrun : run State.init events = some s) :
    s.occupied = s.liveTasks ∧
      (∀ g ∈ s.gates, g.sem = g.tasks.length ∧ g.sem ≤ g.cap) ∧
      (∀ cfg, s.pc.cfg? = some cfg →
        ∃ g gs, s.gates = g :: gs ∧ (g.cap : Int) = cfg.MaxConcurrency) ∧
      (s.backoffs = 0 → ∀ cfg, s.pc.cfg? = some cfg →
        (s.liveTasks : Int) ≤ cfg.MaxConcurrency) ∧
      (s.backoffs = 0 → s.pc = .main → s.liveTasks = 0) ∧
      (∀ gate g task t o, s.gates[gate]? = some g → g.tasks[task]? = some t →
        t.started = true →
        ∃ s1 g1, step s (.exit gate task o) = some s1 ∧ s1.gates[gate]? = some g1 ∧
          g1.sem + 1 = g.sem ∧ g1.tasks.length + 1 = g.tasks.length) := by
  have hinv := run_Inv events State.init s Inv_init hrun
  have hq := run_Quiet events State.init s Quiet_init hrun
  refine ⟨occupied_eq_liveTasks s.gates (fun g hg => (hinv.1 g hg).1),
    hinv.1, hinv.2, ?_, ?_, ?_⟩
  · intro hb cfg hc
    obtain ⟨g, gs, hgs, hcap⟩ := hinv.2 cfg hc
    have htail : ∀ x ∈ gs, x.tasks = [] := by
      have h := (hq hb).1
      rw [hgs] at h
      exact h
    have hg := hinv.1 g (by rw [hgs]; exact List.mem_cons_self _ _)
    have hsum := sum_lengths_eq_zero gs htail
    have hlive : s.liveTasks = g.tasks.length := by
      simp only [State.liveTasks, hgs, List.map_cons, List.sum_cons, hsum, Nat.add_zero]
    rw [hlive, ← hcap]
    exact_mod_cast (by omega : g.tasks.length ≤ g.cap)
  · intro hb hpc
    have h := (hq hb).2
    simp only [hpc] at h
    exact sum_lengths_eq_zero s.gates h
  · intro gate g task t o hg ht hs
    have hmem : g ∈ s.gates := List.getElem?_mem hg
    have hen := Gate.exit_enabled g task t o (hinv.1 g hmem).1 ht hs
    obtain ⟨g1, hg1⟩ := Option.isSome_iff_exists.mp hen
    obtain ⟨hlt, hpos, _, hsem, hlen⟩ := Gate.exit_spec g g1 task o hg1
    have hglt : gate < s.gates.length := by
      obtain ⟨hlt, _⟩ := List.getElem?_eq_some.mp hg
      exact hlt
    refine ⟨{ s with gates := s.gates.set gate g1 }, g1, ?_, ?_, by omega, by omega⟩
    · simp [step, hg, hg1]
    · simp [List.getElem?_set_self hglt]

/-- Witness for C3: the run `gateTrace` of scenario 1. -/
theorem gate_slots_eq_live_tasks_witness :
    run State.init gateTrace = some gateTraceEnd ∧
      gateTraceEnd.occupied = gateTraceEnd.liveTasks ∧
      (∀ g ∈ gateTraceEnd.gates, g.sem = g.tasks.length ∧ g.sem ≤ g.cap) ∧
      (∀ cfg, gateTraceEnd.pc.cfg? = some cfg →
        ∃ g gs, gateTraceEnd.gates = g :: gs ∧ (g.cap : Int) = cfg.MaxConcurrency) ∧
      (gateTraceEnd.backoffs = 0 → ∀ cfg, gateTraceEnd.pc.cfg? = some cfg →
        (gateTraceEnd.liveTasks : Int) ≤ cfg.MaxConcurrency) ∧
      (gateTraceEnd.backoffs = 0 → gateTraceEnd.pc = .main → gateTraceEnd.liveTasks = 0) ∧
      (∀ gate g task t o, gateTraceEnd.gates[gate]? = some g →
        g.tasks[task]? = some t → t.started = true →
        ∃ s1 g1, step gateTraceEnd (.exit gate task o) = some s1 ∧
          s1.gates[gate]? = some g1 ∧
          g1.sem + 1 = g.sem ∧ g1.tasks.length + 1 = g.tasks.length) :=
  ⟨by decide, gate_slots_eq_live_tasks gateTrace gateTraceEnd (by decide)⟩

/-- Line 210 computes in Go's wrapping `int`: with `min_interval_sec = 0` and
`max_interval_sec = 2^63 - 1` the argument of `rand.Intn` is `-2^63` and the
call panics. -/
theorem interval_wraps_and_panics :
    wrapInt (wrapIntervalConfig.MaxIntervalSec - wrapIntervalConfig.MinIntervalSec + 1)
        = -9223372036854775808 ∧
      (step { State.init with pc := .interval wrapIntervalConfig } (.interval 0)).map
          (fun s => (s.pc, s.backoffs))
        = some (.backoff, 1) := by
  decide

/-- The send of line 183 blocks while the channel of the running call is
full. -/
theorem acquire_blocks_when_full (s : State) (g : Gate) (gs : List Gate)
    (hgs : s.gates = g :: gs) (hfull : g.cap ≤ g.sem) : step s .acquire = none := by
  have h : ¬ g.sem < g.cap := by omega
  cases hpc : s.pc <;> simp [step, hpc, hgs, h]

/-! ## Theorems: the supervisor -/

/-- C7: when `main` calls `runDownloader` and the configuration loads with a
non-negative `max_concurrency` and fewer than two endpoints, the call
reaches the loop, where no send on `sem` and no `go` statement can happen,
and returns on the first iteration: `main` is back at its loop and can call
again at once, having taken no 30-second sleep; no slot was acquired and no
task launched, the new channel is empty and the older ones are as they
were. -/
theorem runDownloader_returns_without_backoff (s : State) (cfg : Config)
    (draws : List Nat) (hpc : s.pc = .main) (hconc : 0 ≤ cfg.MaxConcurrency)
    (hurls : cfg.URLs.length < 2) :
    ∃ s1 s2, step s (.call (.ok cfg)) = some s1 ∧ s1.pc = .loop cfg ∧
      step s1 .acquire = none ∧ step s1 .spawn = none ∧
      step s1 (.iterate draws) = some s2 ∧
      s2.pc = .main ∧ s2.backoffs = s.backoffs ∧
      s2.acquired = s.acquired ∧ s2.launched = s.launched ∧
      s2.gates = { cap := cfg.MaxConcurrency.toNat, sem := 0, tasks := [] } :: s.gates ∧
      ∀ load, ∃ s3, step s2 (.call load) = some s3 := by
  have hneg : ¬ cfg.MaxConcurrency < 0 := not_lt.mpr hconc
  refine ⟨{ s with
      pc := .loop cfg
      loggers := s.loggers + 1
      gates := { cap := cfg.MaxConcurrency.toNat, sem := 0, tasks := [] } :: s.gates },
    { s with
      pc := .main
      loggers := s.loggers + 1
      gates := { cap := cfg.MaxConcurrency.toNat, sem := 0, tasks := [] } :: s.gates },
    by simp only [step, hpc, hneg, if_false], rfl, by simp [step],
    by simp [step], by simp only [step, hurls, if_true], rfl, rfl, rfl, rfl, rfl, ?_⟩
  intro load
  cases load with
  | error e => exact ⟨_, rfl⟩
  | ok c =>
    by_cases hc : c.MaxConcurrency < 0
    · simp only [step, hc, if_true]
      exact ⟨_, rfl⟩
    · simp only [step, hc, if_false]
      exact ⟨_, rfl⟩

/-- Witness for C7: the process at start, one endpoint configured. -/
theorem runDownloader_returns_without_backoff_witness :
    State.init.pc = .main ∧ 0 ≤ oneUrlConfig.MaxConcurrency ∧
      oneUrlConfig.URLs.length < 2 ∧
      ∃ s1 s2, step State.init (.call (.ok oneUrlConfig)) = some s1 ∧
        s1.pc = .loop oneUrlConfig ∧
        step s1 .acquire = none ∧ step s1 .spawn = none ∧
        step s1 (.iterate []) = some s2 ∧
        s2.pc = .main ∧ s2.backoffs = State.init.backoffs ∧
        s2.acquired = State.init.acquired ∧ s2.launched = State.init.launched ∧
        s2.gates = { cap := oneUrlConfig.MaxConcurrency.toNat, sem := 0, tasks := [] }
          :: State.init.gates ∧
        ∀ load, ∃ s3, step s2 (.call load) = some s3 :=
  ⟨rfl, by decide, by decide,
   runDownloader_returns_without_backoff State.init oneUrlConfig [] rfl
     (by decide) (by decide)⟩

/-- A configuration that loads but has a negative `max_concurrency`: the
logger is started at line 165, `make` panics at line 167, and `main` takes
the 30-second sleep. -/
theorem runDownloader_negative_concurrency (s : State) (cfg : Config)
    (hpc : s.pc = .main) (hconc : cfg.MaxConcurrency < 0) :
    step s (.call (.ok cfg))
      = some { s with pc := .backoff, loggers := s.loggers + 1,
                      backoffs := s.backoffs + 1 } := by
  simp only [step, hpc, hconc, if_true, State.panic]

/-! ## Theorems: the periodic logger -/

theorem step_loggers (s s1 : State) (e : Event) (hstep : step s e = some s1) :
    s1.loggers = s.loggers + (if e.startsLogger then 1 else 0) := by
  cases e with
  | call load =>
    cases hpc : s.pc <;> simp only [step, hpc] at hstep <;>
      try (exact Option.noConfusion hstep)
    cases load with
    | error err =>
      simp only [Option.some.injEq] at hstep
      subst hstep
      simp [Event.startsLogger, State.panic]
    | ok cfg =>
      by_cases hneg : cfg.MaxConcurrency < 0
      · simp only [hneg, if_true, Option.some.injEq] at hstep
        subst hstep
        simp [Event.startsLogger, State.panic]
      · simp only [hneg, if_false, Option.some.injEq] at hstep
        subst hstep
        simp [Event.startsLogger]
  | iterate draws =>
    cases hpc : s.pc <;> simp only [step, hpc] at hstep <;>
      try (exact Option.noConfusion hstep)
    rename_i cfg
    by_cases hlen : cfg.URLs.length < 2
    · simp only [hlen, if_true, Option.some.injEq] at hstep
      subst hstep
      simp [Event.startsLogger]
    · simp only [hlen, if_false] at hstep
      cases hp : pickTwo draws with
      | none => simp [hp] at hstep
      | some p =>
        obtain ⟨idx1, idx2, rest⟩ := p
        simp only [hp] at hstep
        cases h1 : cfg.URLs[idx1]? <;> cases h2 : cfg.URLs[idx2]? <;>
          simp only [h1, h2, Option.some.injEq] at hstep <;> subst hstep <;>
          simp [Event.startsLogger, State.panic]
  | acquire =>
    cases hpc : s.pc <;> cases hgs : s.gates <;>
      simp only [step, hpc, hgs] at hstep <;>
      try (exact Option.noConfusion hstep)
    rename_i cfg u rest g gs
    by_cases hlt : g.sem < g.cap
    · simp only [hlt, if_true, Option.some.injEq] at hstep
      subst hstep
      simp [Event.startsLogger]
    · simp [hlt] at hstep
  | spawn =>
    cases hpc : s.pc <;> cases hgs : s.gates <;>
      simp only [step, hpc, hgs] at hstep <;>
      try (exact Option.noConfusion hstep)
    simp only [Option.some.injEq] at hstep
    subst hstep
    simp [Event.startsLogger]
  | interval draw =>
    cases hpc : s.pc <;> simp only [step, hpc] at hstep <;>
      try (exact Option.noConfusion hstep)
    rename_i cfg
    by_cases hle : wrapInt (cfg.MaxIntervalSec - cfg.MinIntervalSec + 1) ≤ 0
    · simp only [hle, if_true, Option.some.injEq] at hstep
      subst hstep
      simp [Event.startsLogger, State.panic]
    · simp only [hle, if_false, Option.some.injEq] at hstep
      subst hstep
      simp [Event.startsLogger]
  | wake =>
    cases hpc : s.pc <;> simp only [step, hpc] at hstep <;>
      try (exact Option.noConfusion hstep)
    simp only [Option.some.injEq] at hstep
    subst hstep
    simp [Event.startsLogger]
  | backoffDone =>
    cases hpc : s.pc <;> simp only [step, hpc] at hstep <;>
      try (exact Option.noConfusion hstep)
    simp only [Option.some.injEq] at hstep
    subst hstep
    simp [Event.startsLogger]
  | exit gate task o =>
    simp only [step] at hstep
    cases hg : s.gates[gate]? with
    | none => simp [hg] at hstep
    | some g =>
      simp only [hg] at hstep
      cases hx : g.exit task o with
      | none => simp [hx] at hstep
      | some g1 =>
        simp only [hx, Option.some.injEq] at hstep
        subst hstep
        simp [Event.startsLogger]

/-- The number of logger goroutines is the number of `runDownloader` calls
whose configuration loaded: each starts one and none ever ends. -/
theorem run_loggers (events : List Event) (s s1 : State)
    (hrun : run s events = some s1) :
    s1.loggers = s.loggers + (events.filter Event.startsLogger).length := by
  induction events generalizing s with
  | nil =>
    simp only [run, Option.some.injEq] at hrun
    subst hrun
    simp
  | cons e es ih =>
    simp only [run] at hrun
    cases hs : step s e with
    | none => simp [hs] at hrun
    | some s2 =>
      rw [hs] at hrun
      rw [ih s2 hrun, step_loggers s s2 e hs]
      cases hb : e.startsLogger <;> simp [List.filter, hb]
      omega

/-- C10 at the failing input: with one endpoint configured, `runDownloader`
starts a logger, returns, and is called again by `main` at once; the second
call starts a second logger while the first is still running. -/
theorem two_loggers_after_restart :
    (run State.init restartTrace).map (fun s => s.loggers) = some 2 := by
  decide

end TrafficTester
